import Mathlib

/-!
# Verification of the realtime chat reconciliation core

Shallow embedding of the client-side reconciliation logic of the chat
application (message deduplication/merging, subscription cleanup, presence
derivation, empty-room sweep, room-session guards), together with proofs and
refutations of the specification's claims about it.

Conventions of the embedding:
* JavaScript strings are `String`, timestamps are `Int` (milliseconds).
* A possibly-missing field (`undefined`/`null`) is an `Option`.
* Code that can throw a `TypeError` is modelled in `Except Unit`.
-/

/-- A chat message as held in the in-memory list of the realtime hook.
`id` is `none` when the candidate lacks an id (`undefined` in JS); a
provisional (optimistic) message carries an id starting with `"temp-"`. -/
structure Message where
  id : Option String
  room_id : String
  user_id : String
  message : String
  created_at : Option Int
deriving DecidableEq, Repr

/-- `isSameMessageContent` from `useChatRealtime.js`: two messages have the
same content when they have the same author (`user_id`) and body
(`message`). -/
def isSameMessageContent (msg1 msg2 : Message) : Bool :=
  msg1.user_id == msg2.user_id && msg1.message == msg2.message

/-- JavaScript's `String.prototype.startsWith`, as a kernel-computable
character-list prefix test (equivalent to `String.startsWith`). -/
def strStartsWith (s pfx : String) : Bool :=
  pfx.data.isPrefixOf s.data

/-- The scan performed by `prevMessages.findIndex((msg) =>
msg.id.toString().startsWith(tempIdPrefix) && isSameMessageContent(msg, newMessage))`
in `updateMessageList`.  Evaluating `msg.id.toString()` on an entry whose id
is missing throws a `TypeError`, modelled by `.error ()`. -/
def findTempIndex (pfx : String) (c : Message) : List Message → Except Unit (Option Nat)
  | [] => .ok none
  | m :: rest =>
    match m.id with
    | none => .error ()
    | some s =>
      if strStartsWith s pfx && isSameMessageContent m c then
        .ok (some 0)
      else
        match findTempIndex pfx c rest with
        | .error e => .error e
        | .ok none => .ok none
        | .ok (some i) => .ok (some (i + 1))

/-- `updateMessageList` from `useChatRealtime.js` (the state-updater applied
to the previous message list): discard when a message with the same id is
already present; otherwise replace a provisional (`"temp-"`-prefixed) entry
with the same content in place; otherwise prepend the candidate. -/
def updateMessageList (prev : List Message) (newMessage : Message) :
    Except Unit (List Message) :=
  if prev.any (fun msg => msg.id == newMessage.id) then
    .ok prev
  else
    match findTempIndex "temp-" newMessage prev with
    | .error e => .error e
    | .ok (some i) => .ok (prev.set i newMessage)
    | .ok none => .ok (newMessage :: prev)

/-- The initial history load of `useChatRealtime.js`: `setMessages(initialMessages)`
replaces the whole list, but only when the fetched history is non-empty and a
room is selected. -/
def historyLoad (roomId : Option String) (initialMessages current : List Message) :
    List Message :=
  if initialMessages.isEmpty then current
  else
    match roomId with
    | none => current
    | some _ => initialMessages

/-- A message-list event of the realtime hook: a bulk history load
(`setMessages`) or one ingestion step (`updateMessageList`, reached from the
live feed via `handleNewMessage` or locally via `addLocalMessage`). -/
inductive RoomEvent where
  | history (msgs : List Message)
  | ingest (m : Message)
deriving Repr

/-- Apply one event to the message-list state; a thrown ingestion poisons the
run. -/
def applyEvent (roomId : Option String) (st : Except Unit (List Message))
    (e : RoomEvent) : Except Unit (List Message) :=
  match st with
  | .error err => .error err
  | .ok l =>
    match e with
    | .history msgs => .ok (historyLoad roomId msgs l)
    | .ingest m => updateMessageList l m

/-- Run a sequence of events starting from the empty message list. -/
def runEvents (roomId : Option String) (events : List RoomEvent) :
    Except Unit (List Message) :=
  events.foldl (applyEvent roomId) (.ok [])

/-- A message is durable when it has an id that is not `"temp-"`-prefixed. -/
def isDurable (m : Message) : Bool :=
  match m.id with
  | some s => !(strStartsWith s "temp-")
  | none => false

instance {ε α : Type} [DecidableEq ε] [DecidableEq α] : DecidableEq (Except ε α) := fun
  | .ok a, .ok b =>
    if h : a = b then .isTrue (by rw [h]) else .isFalse (by intro hc; cases hc; exact h rfl)
  | .error a, .error b =>
    if h : a = b then .isTrue (by rw [h]) else .isFalse (by intro hc; cases hc; exact h rfl)
  | .ok _, .error _ => .isFalse (by intro hc; cases hc)
  | .error _, .ok _ => .isFalse (by intro hc; cases hc)

/-- Concrete provisional message used in witnesses and counterexamples. -/
def msgP : Message := ⟨some "temp-1", "r1", "u1", "hi", some 1000⟩

/-- Concrete durable echo of `msgP` (same author and body, distinct id). -/
def msgD : Message := ⟨some "m1", "r1", "u1", "hi", some 1500⟩

namespace Variant

/-- A second implementation of `updateMessageList` present in another source
file of the repository (file name unknown): it first drops candidates with a
missing id, then additionally discards a candidate when a message with a
different id but the same author, body and room exists whose timestamp is
within 5000 ms, before the provisional-replacement scan. -/
def updateMessageList (prev : List Message) (newMessage : Message) :
    Except Unit (List Message) :=
  match newMessage.id with
  | none => .ok prev
  | some _ =>
    if prev.any (fun msg => msg.id == newMessage.id) then
      .ok prev
    else
      let isDuplicate := prev.any (fun msg =>
        msg.id != newMessage.id &&
        msg.user_id == newMessage.user_id &&
        msg.message == newMessage.message &&
        msg.room_id == newMessage.room_id &&
        (match msg.created_at, newMessage.created_at with
         | some t1, some t2 => decide ((t1 - t2).natAbs < 5000)
         | _, _ => false))
      if isDuplicate then .ok prev
      else
        match findTempIndex "temp-" newMessage prev with
        | .error e => .error e
        | .ok (some i) => .ok (prev.set i newMessage)
        | .ok none => .ok (newMessage :: prev)

end Variant

/-! ## Presence derivation -/

/-- A row of the `users` table as selected by the presence queries. -/
structure UserRow where
  id : String
  full_name : String
  image_url : String
  last_seen_at : Option Int
deriving DecidableEq, Repr

/-- The default of the `timeoutMinutes` parameter of `isUserOnline`. -/
def defaultTimeoutMinutes : Int := 5

/-- `isUserOnline` from `dateUtils.js`: online iff `lastSeenAt` is strictly
after `now - timeoutMinutes * 60 * 1000`; a missing timestamp is offline. -/
def isUserOnline (lastSeenAt : Option Int) (timeoutMinutes : Int) (now : Int) : Bool :=
  match lastSeenAt with
  | none => false
  | some t => decide (now - timeoutMinutes * 60 * 1000 < t)

/-- The row filter of the online-users query in `fetchOnlineUsers`
(`useChatRealtime.js`): `.gte('last_seen_at', tenMinutesAgo)` with
`tenMinutesAgo = now - 10 * 60 * 1000`, an inclusive bound. -/
def onlineUsersQueryIncludes (lastSeenAt now : Int) : Bool :=
  decide (now - 10 * 60 * 1000 ≤ lastSeenAt)

/-- The post-processing of the query result in `fetchOnlineUsers`: when the
authenticated local user is absent from the returned rows, push a copy of the
local user with `last_seen_at` set to the current time. -/
def fetchOnlineUsersList (data : List UserRow) (supabaseUser : Option UserRow)
    (now : Int) : List UserRow :=
  let onlineUsersList := data
  match supabaseUser with
  | none => onlineUsersList
  | some u =>
    if onlineUsersList.any (fun user => user.id == u.id) then onlineUsersList
    else onlineUsersList ++ [{ u with last_seen_at := some now }]

/-! ## Empty-room check and sweep -/

/-- A row of `chat_room_members` joined with its user, as returned by
`getChatRoomMembers` (the joined user may be null). -/
structure MemberRow where
  users : Option UserRow
deriving DecidableEq, Repr

/-- A row of the `chat_rooms` table. -/
structure ChatRoomRec where
  id : String
  is_private : Bool
  created_by : String
deriving DecidableEq, Repr

/-- `isRoomEmpty` from `chatService.js`, with the room's member rows passed in
for the awaited `getChatRoomMembers` call.  A missing room id, invalid
online-users input, or an empty online-users list all yield `false`; a room
with no members is empty; otherwise the room is empty iff no member's user id
(ids are truthy strings) occurs among the online users' ids. -/
def isRoomEmpty (roomId : Option String) (onlineUsers : Option (List UserRow))
    (members : List MemberRow) : Bool :=
  match roomId with
  | none => false
  | some _ =>
    match onlineUsers with
    | none => false
    | some ou =>
      if ou.isEmpty then false
      else if members.isEmpty then true
      else
        let memberUserIds := members.filterMap (fun m =>
          match m.users with
          | none => none
          | some u => if u.id == "" then none else some u.id)
        let onlineUserIds := ou.map (fun user => user.id)
        let hasOnlineMembers := memberUserIds.any (fun mid => onlineUserIds.contains mid)
        !hasOnlineMembers

/-- `checkAndDeleteEmptyRooms` from `useChatRooms.js`, returning the ids of
the rooms it deletes.  Guards: no user, no rooms, missing/empty online-users
list, or local user not among the online users all delete nothing; otherwise
every room other than the selected one that `isRoomEmpty` reports empty is
deleted (`membersOf` supplies each room's member rows). -/
def checkAndDeleteEmptyRooms (user : Option UserRow) (rooms : List ChatRoomRec)
    (selectedRoomId : Option String) (onlineUsers : Option (List UserRow))
    (membersOf : String → List MemberRow) : List String :=
  match user with
  | none => []
  | some u =>
    if rooms.isEmpty then []
    else
      match onlineUsers with
      | none => []
      | some ou =>
        if ou.isEmpty then []
        else if !(ou.any (fun x => x.id == u.id)) then []
        else
          (rooms.filter (fun room =>
            !(some room.id == selectedRoomId) &&
            isRoomEmpty (some room.id) (some ou) (membersOf room.id))).map
            (fun room => room.id)

/-! ## Subscription cleanup (JS value semantics) -/

/-- A JavaScript value stored in a slot of the `subscriptions` ref: `null`,
a numeric timer id (what `setInterval` returns in the browser), a channel
object carrying an `unsubscribe` method, or a function. -/
inductive JSVal where
  | jsNull
  | jsNumber (n : Nat)
  | jsChannel (cid : Nat)
  | jsFunction (fid : Nat)
deriving DecidableEq, Repr

/-- JavaScript truthiness of a slot value (`if (subscription)`). -/
def truthy : JSVal → Bool
  | .jsNull => false
  | .jsNumber n => n != 0
  | _ => true

/-- `typeof subscription === 'function'`. -/
def typeofIsFunction : JSVal → Bool
  | .jsFunction _ => true
  | _ => false

/-- `typeof subscription.unsubscribe === 'function'`: only the channel
objects carry an `unsubscribe` method. -/
def hasUnsubscribeFn : JSVal → Bool
  | .jsChannel _ => true
  | _ => false

/-- The ambient timer/channel state: which interval timers are running and
which channels are subscribed. -/
structure TimerRuntime where
  activeIntervals : List Nat
  subscribedChannels : List Nat
deriving DecidableEq, Repr

/-- `clearInterval(v)`: cancels the timer when `v` is a numeric id; a
non-numeric argument clears nothing. -/
def clearIntervalJS (rt : TimerRuntime) : JSVal → TimerRuntime
  | .jsNumber n =>
    { rt with activeIntervals := rt.activeIntervals.filter (fun i => i != n) }
  | _ => rt

/-- `v.unsubscribe()`: removes the channel from the subscribed set. -/
def unsubscribeJS (rt : TimerRuntime) : JSVal → TimerRuntime
  | .jsChannel c =>
    { rt with subscribedChannels := rt.subscribedChannels.filter (fun i => i != c) }
  | _ => rt

/-- The `subscriptions` ref of `useChatRealtime.js` (slot order is the
insertion order of the object literal). -/
structure Subscriptions where
  messages : JSVal
  members : JSVal
  presence : JSVal
  presenceInterval : JSVal
deriving DecidableEq, Repr

/-- The body of the `forEach` in `cleanupSubscriptions`, for one slot value. -/
def cleanupSlot (rt : TimerRuntime) (v : JSVal) : TimerRuntime :=
  if truthy v then
    if typeofIsFunction v then clearIntervalJS rt v
    else if hasUnsubscribeFn v then unsubscribeJS rt v
    else rt
  else rt

/-- `cleanupSubscriptions` from `useChatRealtime.js`: walk `Object.values` of
the ref, then reset every slot to `null` and set `isSubscribed` to `false`
(the returned `Bool`). -/
def cleanupSubscriptions (subs : Subscriptions) (rt : TimerRuntime) :
    Subscriptions × TimerRuntime × Bool :=
  let rt1 := [subs.messages, subs.members, subs.presence,
              subs.presenceInterval].foldl cleanupSlot rt
  (⟨.jsNull, .jsNull, .jsNull, .jsNull⟩, rt1, false)

/-- The subscription-setup part of the hook's effect: stores the three
channel objects in their slots, and stores in `presenceInterval` the numeric
id returned by `setInterval(updatePresence, 30000)`, which starts that timer. -/
def setupSubscriptions (rt : TimerRuntime) (cm cp cmb tid : Nat) :
    Subscriptions × TimerRuntime :=
  (⟨.jsChannel cm, .jsChannel cmb, .jsChannel cp, .jsNumber tid⟩,
   { activeIntervals := tid :: rt.activeIntervals,
     subscribedChannels := cm :: cp :: cmb :: rt.subscribedChannels })

/-! ## Room-session operations as store-effect traces -/

/-- One request issued to the backing store by the room-session operations. -/
inductive StoreEffect where
  | readRoomDetails (roomId : String)
  | readMembership (roomId userId : String)
  | readMembers (roomId : String)
  | insertMessage (roomId userId text : String)
  | insertMember (roomId userId : String)
  | deleteMember (roomId userId : String)
deriving DecidableEq, Repr

/-- Whether an effect writes to the store. -/
def StoreEffect.isWrite : StoreEffect → Bool
  | .insertMessage _ _ _ => true
  | .insertMember _ _ => true
  | .deleteMember _ _ => true
  | _ => false

/-- The backing store contents the operations consult. -/
structure Store where
  rooms : List ChatRoomRec
  memberships : List (String × String)
deriving Repr

/-- `getChatRoomDetails` from `chatService.js`: one read of the room row,
returning it when present. -/
def getChatRoomDetails (st : Store) (roomId : String) :
    Option ChatRoomRec × List StoreEffect :=
  (st.rooms.find? (fun r => r.id == roomId), [.readRoomDetails roomId])

/-- `checkRoomExists` from `useChatRoom.js`: with no room id it returns
`false` without touching the store or the `roomExists` state; otherwise it
reads the room row and sets `roomExists` (second component) to whether it was
found. -/
def checkRoomExists (st : Store) (roomId : Option String) :
    Bool × Option Bool × List StoreEffect :=
  match roomId with
  | none => (false, none, [])
  | some rid =>
    let d := (getChatRoomDetails st rid).1
    (d.isSome, some d.isSome, (getChatRoomDetails st rid).2)

/-- `canAccessRoom` from `chatService.js`: public room, creator, or member. -/
def canAccessRoom (st : Store) (userId roomId : String) : Bool × List StoreEffect :=
  match (getChatRoomDetails st roomId).1 with
  | none => (false, [.readRoomDetails roomId])
  | some room =>
    if !room.is_private then (true, [.readRoomDetails roomId])
    else if room.created_by == userId then (true, [.readRoomDetails roomId])
    else (st.memberships.contains (roomId, userId),
          [.readRoomDetails roomId, .readMembership roomId userId])

/-- `sendChatMessage` from `chatService.js`: check access, then insert the
message row (failure of the access check throws, producing no write). -/
def sendChatMessage (st : Store) (userId roomId text : String) :
    Bool × List StoreEffect :=
  let acc := canAccessRoom st userId roomId
  if acc.1 then (true, acc.2 ++ [.insertMessage roomId userId text])
  else (false, acc.2)

/-- `joinChatRoom` from `chatService.js`: read the room (throw when absent or
when it is private and the caller is not its creator), read the existing
membership, and insert one only when not already a member. -/
def joinChatRoomOp (st : Store) (userId roomId : String) : Bool × List StoreEffect :=
  match (getChatRoomDetails st roomId).1 with
  | none => (false, [.readRoomDetails roomId])
  | some room =>
    if room.is_private && !(room.created_by == userId) then
      (false, [.readRoomDetails roomId])
    else if st.memberships.contains (roomId, userId) then
      (true, [.readRoomDetails roomId, .readMembership roomId userId])
    else
      (true, [.readRoomDetails roomId, .readMembership roomId userId,
              .insertMember roomId userId])

/-- Modelled from the spec: `leaveChatRoom` is imported by `useChatRoom.js`
from the chat service but its definition is not among the provided source
files; per §4.4 of the spec, `leave(roomId)` issues a membership delete
write. -/
def leaveChatRoomOp (userId roomId : String) : List StoreEffect :=
  [.deleteMember roomId userId]

/-- `loadMembers` from `useChatRoom.js`: guarded by room id and user, it
re-checks room existence and then reads the member rows. -/
def loadMembers (st : Store) (roomId userId : Option String) : List StoreEffect :=
  match roomId, userId with
  | some rid, some _ =>
    let c := checkRoomExists st (some rid)
    if c.1 then c.2.2 ++ [.readMembers rid] else c.2.2
  | _, _ => []

/-- JavaScript's `String.prototype.trim`, as a kernel-computable
character-list implementation (strip leading and trailing whitespace). -/
def jsTrim (s : String) : String :=
  String.mk (((s.data.dropWhile Char.isWhitespace).reverse.dropWhile
    Char.isWhitespace).reverse)

/-- `sendMessage` from `useChatRoom.js`: blank input, missing room id or
missing user return immediately; otherwise the room-existence check runs
first and, only when the room exists, the durable write is issued.  Returns
whether the send was performed, and the trace of store requests. -/
def sendMessage (st : Store) (roomId userId : Option String)
    (messageText : String) : Bool × List StoreEffect :=
  let trimmedMessage := jsTrim messageText
  match roomId, userId with
  | some rid, some uid =>
    if trimmedMessage.data.isEmpty then (false, [])
    else
      let c := checkRoomExists st (some rid)
      if !c.1 then (false, c.2.2)
      else
        let s := sendChatMessage st uid rid trimmedMessage
        (s.1, c.2.2 ++ s.2)
  | _, _ => (false, [])

/-- `joinRoom` from `useChatRoom.js`: existence check first; on success the
membership write is issued and the members are reloaded. -/
def joinRoom (st : Store) (roomId userId : Option String) :
    Bool × List StoreEffect :=
  match roomId, userId with
  | some rid, some uid =>
    let c := checkRoomExists st (some rid)
    if !c.1 then (false, c.2.2)
    else
      let j := joinChatRoomOp st uid rid
      if j.1 then (true, c.2.2 ++ j.2 ++ loadMembers st (some rid) (some uid))
      else (false, c.2.2 ++ j.2)
  | _, _ => (false, [])

/-- `leaveRoom` from `useChatRoom.js`: existence check first; on success the
membership delete is issued and the members are reloaded. -/
def leaveRoom (st : Store) (roomId userId : Option String) :
    Bool × List StoreEffect :=
  match roomId, userId with
  | some rid, some uid =>
    let c := checkRoomExists st (some rid)
    if !c.1 then (false, c.2.2)
    else (true, c.2.2 ++ leaveChatRoomOp uid rid ++ loadMembers st (some rid) (some uid))
  | _, _ => (false, [])

/-! ## Concrete fixtures for witnesses and counterexamples -/

/-- A second durable message: same author, body and room as `msgD`, distinct
id, timestamp 500 ms later. -/
def msgD2 : Message := ⟨some "m2", "r1", "u1", "hi", some 2000⟩

/-- A malformed candidate whose id is missing (`undefined`). -/
def msgNoId : Message := ⟨none, "r1", "u1", "hi", some 1000⟩

/-- A well-formed durable message unrelated to the others. -/
def msgOther : Message := ⟨some "m9", "r1", "u2", "yo", some 1000⟩

/-- A concrete authenticated local user. -/
def uLocal : UserRow := ⟨"u1", "User One", "img1", some 0⟩

/-- A store holding no rooms and no memberships. -/
def stEmpty : Store := ⟨[], []⟩

/-! ## Helper lemmas -/

/-- An element survives `List.set` or it was (an occurrence at) the
overwritten index. -/
theorem mem_set_or {α : Type} (x : α) :
    ∀ (L : List α) (i : Nat) (c : α), x ∈ L → x ∈ L.set i c ∨ L.get? i = some x
  | [], _, _, hx => absurd hx (List.not_mem_nil x)
  | a :: as, 0, c, hx => by
    rcases List.mem_cons.1 hx with h | h
    · exact Or.inr (by simp [h])
    · exact Or.inl (List.mem_cons_of_mem c h)
  | a :: as, i + 1, c, hx => by
    rcases List.mem_cons.1 hx with h | h
    · exact Or.inl (by simp [h])
    · rcases mem_set_or x as i c h with h' | h'
      · exact Or.inl (List.mem_cons_of_mem a h')
      · exact Or.inr (by simpa using h')

/-- The written element is a member of `List.set` when the index is in
bounds. -/
theorem self_mem_set {α : Type} :
    ∀ (L : List α) (i : Nat) (c : α), i < L.length → c ∈ L.set i c
  | [], i, c, h => absurd h (by simp)
  | a :: as, 0, c, _ => by simp
  | a :: as, i + 1, c, h =>
    List.mem_cons_of_mem a (self_mem_set as i c (by simpa using h))

/-- When the provisional-replacement scan finds an index, that position holds
an entry whose id exists and carries the prefix. -/
theorem findTempIndex_some (pfx : String) (c : Message) :
    ∀ (L : List Message) (i : Nat), findTempIndex pfx c L = .ok (some i) →
      ∃ m', L.get? i = some m' ∧ ∃ s, m'.id = some s ∧ strStartsWith s pfx = true := by
  intro L
  induction L with
  | nil => intro i h; simp [findTempIndex] at h
  | cons m rest ih =>
    intro i h
    unfold findTempIndex at h
    split at h
    · cases h
    · rename_i s hid
      split at h
      · rename_i hc
        cases h
        refine ⟨m, by simp, s, hid, ?_⟩
        simp only [Bool.and_eq_true] at hc
        exact hc.1
      · split at h
        · cases h
        · cases h
        · rename_i j hrec
          cases h
          obtain ⟨m', hm', hs⟩ := ih j hrec
          exact ⟨m', by simpa using hm', hs⟩

/-- A found index of the provisional-replacement scan is in bounds. -/
theorem findTempIndex_lt (pfx : String) (c : Message) (L : List Message)
    (i : Nat) (h : findTempIndex pfx c L = .ok (some i)) : i < L.length := by
  obtain ⟨m', hm', -⟩ := findTempIndex_some pfx c L i h
  exact List.get?_eq_some.1 hm' |>.1

/-- The provisional-replacement scan finds nothing when every entry has an id
and none both carries the prefix and matches the candidate's content. -/
theorem findTempIndex_none_of (pfx : String) (c : Message) :
    ∀ (L : List Message),
      (∀ y ∈ L, ∃ s, y.id = some s ∧
        (strStartsWith s pfx && isSameMessageContent y c) = false) →
      findTempIndex pfx c L = .ok none
  | [], _ => rfl
  | m :: rest, h => by
    obtain ⟨s, hs, hf⟩ := h m (List.mem_cons_self m rest)
    have hrec := findTempIndex_none_of pfx c rest (fun y hy => h y (List.mem_cons_of_mem m hy))
    unfold findTempIndex
    rw [hs]
    simp only [hf, if_neg, hrec]
    simp [hf]

/-! ## Claim theorems -/

/-- C2: Ingestion is idempotent: a successful ingestion of `m` followed by a
second ingestion of the same `m` returns the list unchanged; and whenever a
message with the candidate's id already exists in the list, the candidate is
discarded and the list is returned unchanged. -/
theorem ingest_idempotent :
    (∀ (L : List Message) (m : Message) (L' : List Message),
        updateMessageList L m = .ok L' → updateMessageList L' m = .ok L')
    ∧ (∀ (L : List Message) (m : Message),
        (∃ x ∈ L, (x.id == m.id) = true) → updateMessageList L m = .ok L) := by
  have hdup : ∀ (L : List Message) (m : Message),
      (∃ x ∈ L, (x.id == m.id) = true) → updateMessageList L m = .ok L := by
    rintro L m ⟨x, hx, hid⟩
    have hany : L.any (fun msg => msg.id == m.id) = true :=
      List.any_eq_true.2 ⟨x, hx, hid⟩
    simp [updateMessageList, hany]
  refine ⟨?_, hdup⟩
  intro L m L' h
  rw [updateMessageList] at h
  split at h
  · rename_i hany
    cases h
    rw [List.any_eq_true] at hany
    obtain ⟨x, hx, hid⟩ := hany
    exact hdup _ m ⟨x, hx, hid⟩
  · split at h
    · cases h
    · rename_i i hft
      cases h
      have hlt : i < L.length := findTempIndex_lt "temp-" m L i hft
      exact hdup _ m ⟨m, self_mem_set L i m hlt, by simp⟩
    · cases h
      exact hdup _ m ⟨m, List.mem_cons_self m L, by simp⟩

/-- Witness for C2: re-ingesting a durable message already present returns
the list unchanged. -/
theorem ingest_idempotent_witness :
    updateMessageList [msgD] msgD = .ok [msgD] :=
  ingest_idempotent.1 [] msgD [msgD] (by decide)

/-- C10: One successful ingestion step never removes an entry: the result
keeps the list's length (duplicate discarded or provisional replaced in
place) or grows it by exactly one (new entry prepended), and every durable
entry of the input list is still present in the result. -/
theorem ingest_preserves_entries :
    ∀ (L : List Message) (c : Message) (R : List Message),
      updateMessageList L c = .ok R →
      (R.length = L.length ∨ R.length = L.length + 1)
      ∧ ∀ x ∈ L, isDurable x = true → x ∈ R := by
  intro L c R h
  rw [updateMessageList] at h
  split at h
  · cases h
    exact ⟨Or.inl rfl, fun x hx _ => hx⟩
  · split at h
    · cases h
    · rename_i i hft
      cases h
      refine ⟨Or.inl (List.length_set L i c), ?_⟩
      intro x hx hdur
      rcases mem_set_or x L i c hx with hmem | hget
      · exact hmem
      · obtain ⟨m', hm', s, hsid, hpfx⟩ := findTempIndex_some "temp-" c L i hft
        rw [hget] at hm'
        cases hm'
        simp [isDurable, hsid, hpfx] at hdur
    · cases h
      exact ⟨Or.inr rfl, fun x hx _ => List.mem_cons_of_mem c hx⟩

/-- Witness for C10: replacing the provisional entry keeps the length and the
durable entries. -/
theorem ingest_preserves_entries_witness :
    (([msgD] : List Message).length = ([msgP] : List Message).length
      ∨ ([msgD] : List Message).length = ([msgP] : List Message).length + 1)
    ∧ ∀ x ∈ ([msgP] : List Message), isDurable x = true → x ∈ ([msgD] : List Message) :=
  ingest_preserves_entries [msgP] msgD [msgD] (by decide)

/-- C1 counterexample: applying the same three operations in the order
{history load containing D, optimistic insert of P, live echo of D} leaves
TWO entries representing the message — the provisional `msgP` survives next
to the durable `msgD` — so ingestion is not order-independent as claimed. -/
theorem reconcile_history_first_keeps_provisional :
    runEvents (some "r1") [.history [msgD], .ingest msgP, .ingest msgD]
      = .ok [msgP, msgD]
    ∧ msgP ≠ msgD ∧ isDurable msgP = false
    ∧ isSameMessageContent msgP msgD = true := by decide

/-- C1 amended: reconciliation yields exactly the durable message `D` alone
in the arrival orders where the optimistic insert of the provisional `P`
precedes both durable arrivals, and in the order where the live echo comes
first but the history load arrives last; (the counterexample shows it fails
when the history load precedes the optimistic insert). -/
theorem reconcile_provisional_first (P D : Message) (r : String) (pt d : String)
    (hP : P.id = some pt) (hpt : strStartsWith pt "temp-" = true)
    (hD : D.id = some d) (hd : strStartsWith d "temp-" = false)
    (hu : P.user_id = D.user_id) (hm : P.message = D.message)
    (hne : pt ≠ d) :
    runEvents (some r) [.ingest P, .history [D], .ingest D] = .ok [D]
    ∧ runEvents (some r) [.ingest P, .ingest D, .history [D]] = .ok [D]
    ∧ runEvents (some r) [.ingest D, .ingest P, .history [D]] = .ok [D] := by
  have hbne : (pt == d) = false := by
    simp only [beq_eq_false_iff_ne, ne_eq]
    exact hne
  have hbne' : (d == pt) = false := by
    simp only [beq_eq_false_iff_ne, ne_eq]
    exact fun hc => hne hc.symm
  have hsame : isSameMessageContent P D = true := by
    rw [isSameMessageContent, hu, hm]
    simp
  have e1 : updateMessageList [] P = .ok [P] := by
    simp [updateMessageList, findTempIndex]
  have e1d : updateMessageList [] D = .ok [D] := by
    simp [updateMessageList, findTempIndex]
  have e2 : updateMessageList [P] D = .ok [D] := by
    rw [updateMessageList]
    have hany : ([P].any fun msg => msg.id == D.id) = false := by
      simp [hP, hD, hbne]
    rw [hany]
    have hft : findTempIndex "temp-" D [P] = .ok (some 0) := by
      unfold findTempIndex
      rw [hP]
      simp [hpt, hsame]
    rw [hft]
    simp
  have e3 : updateMessageList [D] D = .ok [D] := by
    have hany : ([D].any fun msg => msg.id == D.id) = true := by simp
    simp [updateMessageList, hany]
  have e4 : updateMessageList [D] P = .ok [P, D] := by
    rw [updateMessageList]
    have hany : ([D].any fun msg => msg.id == P.id) = false := by
      simp [hP, hD, hbne']
    rw [hany]
    have hft : findTempIndex "temp-" P [D] = .ok none := by
      unfold findTempIndex
      rw [hD]
      simp [hd, findTempIndex]
    rw [hft]
    simp
  have hh : ∀ l : List Message, historyLoad (some r) [D] l = [D] := by
    intro l
    simp [historyLoad]
  refine ⟨?_, ?_, ?_⟩
  · show applyEvent (some r) (applyEvent (some r) (applyEvent (some r) (.ok []) (.ingest P))
      (.history [D])) (.ingest D) = .ok [D]
    rw [show applyEvent (some r) (.ok []) (.ingest P) = updateMessageList [] P from rfl, e1]
    rw [show applyEvent (some r) (.ok [P]) (.history [D]) = .ok (historyLoad (some r) [D] [P]) from rfl, hh]
    rw [show applyEvent (some r) (.ok [D]) (.ingest D) = updateMessageList [D] D from rfl, e3]
  · show applyEvent (some r) (applyEvent (some r) (applyEvent (some r) (.ok []) (.ingest P))
      (.ingest D)) (.history [D]) = .ok [D]
    rw [show applyEvent (some r) (.ok []) (.ingest P) = updateMessageList [] P from rfl, e1]
    rw [show applyEvent (some r) (.ok [P]) (.ingest D) = updateMessageList [P] D from rfl, e2]
    rw [show applyEvent (some r) (.ok [D]) (.history [D]) = .ok (historyLoad (some r) [D] [D]) from rfl, hh]
  · show applyEvent (some r) (applyEvent (some r) (applyEvent (some r) (.ok []) (.ingest D))
      (.ingest P)) (.history [D]) = .ok [D]
    rw [show applyEvent (some r) (.ok []) (.ingest D) = updateMessageList [] D from rfl, e1d]
    rw [show applyEvent (some r) (.ok [D]) (.ingest P) = updateMessageList [D] P from rfl, e4]
    rw [show applyEvent (some r) (.ok [P, D]) (.history [D]) = .ok (historyLoad (some r) [D] [P, D]) from rfl, hh]

/-- Witness for the amended C1 at the concrete provisional/durable pair. -/
theorem reconcile_provisional_first_witness :
    runEvents (some "r1") [.ingest msgP, .history [msgD], .ingest msgD] = .ok [msgD]
    ∧ runEvents (some "r1") [.ingest msgP, .ingest msgD, .history [msgD]] = .ok [msgD]
    ∧ runEvents (some "r1") [.ingest msgD, .ingest msgP, .history [msgD]] = .ok [msgD] :=
  reconcile_provisional_first msgP msgD "r1" "temp-1" "m1" rfl (by decide) rfl
    (by decide) rfl rfl (by decide)

/-- C3 counterexample: `msgD2` is a durable candidate with no matching
provisional entry while the list holds a different durable message `msgD`
with the same author, body and room only 500 ms apart — yet the candidate is
NOT discarded: it is prepended as a new message. -/
theorem durable_near_duplicate_inserted :
    updateMessageList [msgD] msgD2 = .ok [msgD2, msgD]
    ∧ ([msgD2, msgD] : List Message) ≠ [msgD]
    ∧ msgD.user_id = msgD2.user_id ∧ msgD.message = msgD2.message
    ∧ msgD.room_id = msgD2.room_id
    ∧ msgD.created_at = some 1500 ∧ msgD2.created_at = some 2000 := by decide

/-- C3 amended: the cited `updateMessageList` performs no tolerance-window
content check at all — a durable candidate whose id is absent from the list
and for which no provisional entry matches is always prepended as a new
message, even when a different durable message with the same author, body and
room and a timestamp within a few seconds is present. -/
theorem durable_candidate_always_inserted (L : List Message) (c x : Message)
    (hx : x ∈ L) (hxid : x.id ≠ c.id) (hu : x.user_id = c.user_id)
    (hb : x.message = c.message) (hr : x.room_id = c.room_id)
    (tx tc : Int) (htx : x.created_at = some tx) (htc : c.created_at = some tc)
    (hclose : (tc - tx).natAbs < 5000)
    (hany : (L.any fun msg => msg.id == c.id) = false)
    (hnotemp : ∀ y ∈ L, ∃ s, y.id = some s ∧
        (strStartsWith s "temp-" && isSameMessageContent y c) = false) :
    updateMessageList L c = .ok (c :: L) := by
  have hft := findTempIndex_none_of "temp-" c L hnotemp
  rw [updateMessageList, hany, hft]
  rfl

/-- Witness for the amended C3 at the concrete near-duplicate pair. -/
theorem durable_candidate_always_inserted_witness :
    updateMessageList [msgD] msgD2 = .ok (msgD2 :: [msgD]) :=
  durable_candidate_always_inserted [msgD] msgD2 msgD (by decide) (by decide)
    rfl rfl rfl 1500 2000 rfl rfl (by decide) (by decide)
    (fun y hy => by
      rw [List.mem_singleton] at hy
      subst hy
      exact ⟨"m1", rfl, by decide⟩)

/-- C7 counterexample: a candidate with no id is NOT dropped — it is
prepended, changing the list — and ingestion is not exception-free: once an
entry with no id sits in the list, ingesting a further (well-formed)
candidate throws a `TypeError` from `msg.id.toString()`. -/
theorem ingest_missing_id_not_dropped :
    updateMessageList [] msgNoId = .ok [msgNoId]
    ∧ ([msgNoId] : List Message) ≠ []
    ∧ updateMessageList [msgNoId] msgOther = .error () := by decide

/-- C7 amended: ingesting a candidate with no id prepends it (the list
changes) whenever every existing entry has an id and none is a matching
provisional entry; and ingestion throws whenever the list's first entry has
no id and the candidate's id matches no entry of the list. -/
theorem ingest_missing_id_behavior :
    (∀ (L : List Message) (c : Message), c.id = none →
        (∀ y ∈ L, ∃ s, y.id = some s ∧
          (strStartsWith s "temp-" && isSameMessageContent y c) = false) →
        updateMessageList L c = .ok (c :: L))
    ∧ (∀ (L : List Message) (m c : Message), m.id = none → c.id ≠ none →
        (∀ y ∈ L, (y.id == c.id) = false) →
        updateMessageList (m :: L) c = .error ()) := by
  constructor
  · intro L c hcid hnotemp
    have hany : (L.any fun msg => msg.id == c.id) = false := by
      rw [List.any_eq_false]
      intro y hy
      obtain ⟨s, hs, -⟩ := hnotemp y hy
      rw [hs, hcid]
      simp
    have hft := findTempIndex_none_of "temp-" c L hnotemp
    rw [updateMessageList, hany, hft]
    rfl
  · intro L m c hmid hcid hno
    obtain ⟨cs, hcs⟩ := Option.ne_none_iff_exists'.1 hcid
    have hany : ((m :: L).any fun msg => msg.id == c.id) = false := by
      rw [List.any_eq_false]
      intro y hy
      rcases List.mem_cons.1 hy with h | h
      · subst h
        rw [hmid, hcs]
        simp
      · exact by simpa using hno y h
    have hft : findTempIndex "temp-" c (m :: L) = .error () := by
      unfold findTempIndex
      rw [hmid]
    rw [updateMessageList, hany, hft]
    rfl

/-- Witness for the amended C7: prepending a no-id candidate onto a durable
list, and throwing on a list headed by a no-id entry. -/
theorem ingest_missing_id_behavior_witness :
    updateMessageList [msgD] msgNoId = .ok (msgNoId :: [msgD])
    ∧ updateMessageList [msgNoId] msgOther = .error () :=
  ⟨ingest_missing_id_behavior.1 [msgD] msgNoId rfl
      (fun y hy => by
        rw [List.mem_singleton] at hy
        subst hy
        exact ⟨"m1", rfl, by decide⟩),
   ingest_missing_id_behavior.2 [] msgNoId msgOther rfl (by decide)
      (fun y hy => absurd hy (List.not_mem_nil y))⟩

/-- C4 (code bug, evaluation at the failing input): after setup stores the
three channel objects and the numeric timer id 7 returned by `setInterval`,
`cleanupSubscriptions` unsubscribes all three channels, but the heartbeat
interval is still active afterwards — `clearInterval` runs only for values of
function type, which the numeric id is not — while a second cleanup on the
already-cleaned state is a no-op. -/
theorem cleanup_leaves_heartbeat_running :
    (setupSubscriptions ⟨[], []⟩ 1 2 3 7).2.subscribedChannels = [1, 2, 3]
    ∧ (cleanupSubscriptions (setupSubscriptions ⟨[], []⟩ 1 2 3 7).1
        (setupSubscriptions ⟨[], []⟩ 1 2 3 7).2).2.1.subscribedChannels = []
    ∧ (cleanupSubscriptions (setupSubscriptions ⟨[], []⟩ 1 2 3 7).1
        (setupSubscriptions ⟨[], []⟩ 1 2 3 7).2).2.1.activeIntervals = [7]
    ∧ cleanupSubscriptions ⟨.jsNull, .jsNull, .jsNull, .jsNull⟩ ⟨[7], []⟩
        = (⟨.jsNull, .jsNull, .jsNull, .jsNull⟩, ⟨[7], []⟩, false) := by decide

/-- C5 counterexample: under the `fetchOnlineUsers` code path a presence row
whose `last_seen_at` is exactly that path's window (10 minutes) old IS
reported online — the boundary there is inclusive — and the window differs
from `isUserOnline`'s default 5-minute constant, so there is no single
tunable threshold ruling every code path exclusively. -/
theorem query_boundary_inclusive_at_threshold :
    onlineUsersQueryIncludes 0 600000 = true
    ∧ defaultTimeoutMinutes * 60 * 1000 ≠ (600000 : Int) := by decide

/-- C5 amended: `isUserOnline` is exclusive at its (tunable) threshold —
exactly-threshold-old is offline and one millisecond younger is online — but
the `fetchOnlineUsers` query path uses its own hard-coded 10-minute window
with an inclusive boundary. -/
theorem presence_boundary_amended :
    ∀ (now timeoutMinutes : Int),
      isUserOnline (some (now - timeoutMinutes * 60 * 1000)) timeoutMinutes now = false
      ∧ isUserOnline (some (now - timeoutMinutes * 60 * 1000 + 1)) timeoutMinutes now = true
      ∧ onlineUsersQueryIncludes (now - 10 * 60 * 1000) now = true := by
  intro now t
  refine ⟨?_, ?_, ?_⟩
  · simp [isUserOnline]
  · simp [isUserOnline]
  · simp [onlineUsersQueryIncludes]

/-- C6: when online-user detection reports zero online users, the empty-room
check declares every room non-empty and the empty-room sweep deletes no
room. -/
theorem no_deletion_when_no_online_users :
    ∀ (roomId : Option String) (members : List MemberRow) (user : Option UserRow)
      (rooms : List ChatRoomRec) (sel : Option String)
      (membersOf : String → List MemberRow),
      isRoomEmpty roomId (some []) members = false
      ∧ checkAndDeleteEmptyRooms user rooms sel (some []) membersOf = [] := by
  intro roomId members user rooms sel mo
  constructor
  · cases roomId <;> simp [isRoomEmpty]
  · cases user with
    | none => rfl
    | some u =>
      rw [checkAndDeleteEmptyRooms]
      by_cases h : rooms.isEmpty
      · rw [if_pos h]
      · rw [if_neg h]
        simp

/-- C9: the presence snapshot always contains the authenticated local user:
whatever rows the online-users query returned, the local user's id occurs in
the resulting list, and when the query missed the local user the list is
exactly the rows with the local user appended carrying the current
timestamp. -/
theorem snapshot_includes_local_user :
    ∀ (rows : List UserRow) (u : UserRow) (now : Int),
      ((fetchOnlineUsersList rows (some u) now).any fun x => x.id == u.id) = true
      ∧ ((rows.any fun x => x.id == u.id) = false →
          fetchOnlineUsersList rows (some u) now
            = rows ++ [{ u with last_seen_at := some now }]) := by
  intro rows u now
  by_cases h : (rows.any fun x => x.id == u.id) = true
  · constructor
    · simp only [fetchOnlineUsersList, h]
      simpa using h
    · intro hf
      rw [h] at hf
      cases hf
  · have h' : (rows.any fun x => x.id == u.id) = false := by
      simpa using h
    constructor
    · simp only [fetchOnlineUsersList, h', if_neg]
      simp
    · intro _
      simp only [fetchOnlineUsersList, h', if_neg]
      simp

/-- Witness for C9: an empty query result still yields a snapshot holding the
local user, freshly stamped. -/
theorem snapshot_includes_local_user_witness :
    fetchOnlineUsersList [] (some uLocal) 5
      = [] ++ [{ uLocal with last_seen_at := some 5 }] :=
  (snapshot_includes_local_user [] uLocal 5).2 (by decide)

/-- C8 counterexample: with the selected room absent from the store,
`sendMessage` does reject — but it still issues a store request (the
room-existence read), so "reject without making network calls" fails. -/
theorem send_on_missing_room_still_calls_store :
    sendMessage stEmpty (some "r1") (some "u1") "hello"
      = (false, [.readRoomDetails "r1"])
    ∧ ([StoreEffect.readRoomDetails "r1"] : List StoreEffect) ≠ [] := by decide

/-- C8 amended: when the selected room is absent from the store, the
existence check reports it missing and sets `roomExists` to `false`
(NotFound), and `sendMessage`, `joinRoom` and `leaveRoom` all reject without
issuing any WRITE to the store — each performs at most the read-only
existence check. -/
theorem missing_room_rejects_without_writes (st : Store) (rid : String)
    (user : Option String) (text : String)
    (habs : (st.rooms.find? fun r => r.id == rid) = none) :
    (checkRoomExists st (some rid)).1 = false
    ∧ (checkRoomExists st (some rid)).2.1 = some false
    ∧ (sendMessage st (some rid) user text).1 = false
    ∧ (∀ e ∈ (sendMessage st (some rid) user text).2, e.isWrite = false)
    ∧ (joinRoom st (some rid) user).1 = false
    ∧ (∀ e ∈ (joinRoom st (some rid) user).2, e.isWrite = false)
    ∧ (leaveRoom st (some rid) user).1 = false
    ∧ (∀ e ∈ (leaveRoom st (some rid) user).2, e.isWrite = false) := by
  have hchk : checkRoomExists st (some rid)
      = (false, some false, [.readRoomDetails rid]) := by
    simp [checkRoomExists, getChatRoomDetails, habs]
  refine ⟨by rw [hchk], by rw [hchk], ?_, ?_, ?_, ?_, ?_, ?_⟩
  · cases user with
    | none => rfl
    | some uid =>
      rw [sendMessage]
      by_cases ht : (jsTrim text).data.isEmpty
      · rw [if_pos ht]
      · rw [if_neg ht]
        simp [hchk]
  · cases user with
    | none => exact fun e he => absurd he (List.not_mem_nil e)
    | some uid =>
      rw [sendMessage]
      by_cases ht : (jsTrim text).data.isEmpty
      · rw [if_pos ht]
        exact fun e he => absurd he (List.not_mem_nil e)
      · rw [if_neg ht]
        simp [hchk, StoreEffect.isWrite]
  · cases user with
    | none => rfl
    | some uid =>
      rw [joinRoom]
      simp [hchk]
  · cases user with
    | none => exact fun e he => absurd he (List.not_mem_nil e)
    | some uid =>
      rw [joinRoom]
      simp [hchk, StoreEffect.isWrite]
  · cases user with
    | none => rfl
    | some uid =>
      rw [leaveRoom]
      simp [hchk]
  · cases user with
    | none => exact fun e he => absurd he (List.not_mem_nil e)
    | some uid =>
      rw [leaveRoom]
      simp [hchk, StoreEffect.isWrite]

/-- Witness for the amended C8 on the empty store. -/
theorem missing_room_rejects_without_writes_witness :
    (checkRoomExists stEmpty (some "r1")).1 = false
    ∧ (checkRoomExists stEmpty (some "r1")).2.1 = some false
    ∧ (sendMessage stEmpty (some "r1") (some "u1") "hello").1 = false
    ∧ (∀ e ∈ (sendMessage stEmpty (some "r1") (some "u1") "hello").2, e.isWrite = false)
    ∧ (joinRoom stEmpty (some "r1") (some "u1")).1 = false
    ∧ (∀ e ∈ (joinRoom stEmpty (some "r1") (some "u1")).2, e.isWrite = false)
    ∧ (leaveRoom stEmpty (some "r1") (some "u1")).1 = false
    ∧ (∀ e ∈ (leaveRoom stEmpty (some "r1") (some "u1")).2, e.isWrite = false) :=
  missing_room_rejects_without_writes stEmpty "r1" (some "u1") "hello" (by decide)
